import Mathlib

/-!
Shallow embedding of the `pallas-applying` Byron phase-1 transaction
validator (`src/pallas-applying/src/lib.rs`) and proofs about it.

Machine integers (`u64`) are modelled as `Nat` with explicit wrapping
arithmetic modulo `2 ^ 64`, matching Rust release-mode semantics of the
`+`, `*` and `-` operators used by the source.

Types imported by the source from `pallas_primitives`, `pallas_codec` and
`pallas_traverse` (which are outside the validator crate) are modelled from
the spec's data-model section: they are plain data carriers whose only role
here is to be inspected by the validator.
-/

namespace Pallas

/-- `2 ^ 64`, the modulus of Rust's `u64` arithmetic. -/
def U64MOD : Nat := 18446744073709551616

/-- Wrapping `u64` addition (Rust release-mode `+` on `u64`). -/
def u64add (a b : Nat) : Nat := (a + b) % U64MOD

/-- Wrapping `u64` multiplication (Rust release-mode `*` on `u64`). -/
def u64mul (a b : Nat) : Nat := (a * b) % U64MOD

/-- Wrapping `u64` subtraction (Rust release-mode `-` on `u64`):
for `a b < 2 ^ 64` this equals `a - b` when `b ≤ a` and wraps around
otherwise. -/
def u64sub (a b : Nat) : Nat := (a + U64MOD - b) % U64MOD

/-- Modelled from the spec: `pallas_codec`'s `MaybeIndefArray`, a sequence
whose serialization may use definite or indefinite framing; its semantic
identity is purely the ordered element contents (`to_vec`). -/
inductive MaybeIndefArray (α : Type) where
  | Def : List α → MaybeIndefArray α
  | Indef : List α → MaybeIndefArray α
deriving DecidableEq

/-- The ordered element contents of a `MaybeIndefArray` (`to_vec`). -/
def MaybeIndefArray.toVec {α : Type} : MaybeIndefArray α → List α
  | .Def xs => xs
  | .Indef xs => xs

/-- Modelled from the spec: a Byron transaction id, a 32-byte digest,
represented as its byte sequence. -/
abbrev TxId := List Nat

/-- Modelled from the spec: an opaque byte string (`ByteVec`). -/
abbrev ByteVec := List Nat

/-- Modelled from the spec: a Byron input descriptor. The standard variant
(`Variant0`) carries a previous-transaction id and a 32-bit output index
(the source wraps the pair in a codec-transparent `CborWrap`); the
non-standard variant (`Other`) carries an opaque tag byte and byte string. -/
inductive TxIn where
  | Variant0 : TxId → Nat → TxIn
  | Other : Nat → ByteVec → TxIn
deriving DecidableEq

/-- Modelled from the spec: a Byron address, a tagged payload plus a 32-bit
CRC. -/
structure Address where
  payload : ByteVec
  crc : Nat
deriving DecidableEq

/-- Modelled from the spec: a Byron transaction output — an address and a
`u64` lovelace amount. -/
structure TxOut where
  address : Address
  amount : Nat
deriving DecidableEq

/-- Modelled from the spec: the Byron attribute map (`EmptyMap` in the
source's tests); opaque to the validator. -/
abbrev Attributes := Unit

/-- Modelled from the spec: a Byron transaction body — ordered inputs,
ordered outputs, and attributes. -/
structure Tx where
  inputs : MaybeIndefArray TxIn
  outputs : MaybeIndefArray TxOut
  attributes : Attributes
deriving DecidableEq

/-- Modelled from the spec: a single Byron witness record, opaque to the
validator (the source never inspects it). -/
abbrev Twit := Nat

/-- Modelled from the spec: the Byron witness sequence. -/
abbrev Witnesses := MaybeIndefArray Twit

/-- Protocol parameters (`ProtocolParams` in the source). -/
structure ProtocolParams where
  minimum_fee_constant : Nat
  minimum_fee_factor : Nat
  max_tx_size : Nat

/-- The verdict taxonomy (`ValidationError` in the source). -/
inductive ValidationError where
  | UnsupportedEra : String → ValidationError
  | TxSizeUnavailable : ValidationError
  | TxInsEmpty : ValidationError
  | TxOutsEmpty : ValidationError
  | InputNotUTxO : ValidationError
  | IllFormedInput : ValidationError
  | OutputWithoutLovelace : ValidationError
  | WrongFees : Nat → Nat → ValidationError
  | FeesBelowMin : ValidationError
  | MaxTxSizeExceeded : Nat → Nat → ValidationError
deriving DecidableEq

/-- `ValidationResult` in the source: `Result<(), ValidationError>`. -/
abbrev ValidationResult := Except ValidationError Unit

/-- `err_result` in the source. -/
def err_result (validation_error : ValidationError) : ValidationResult :=
  Except.error validation_error

/-- The canonical input key (`UTxOTxIn` in the source). -/
inductive UTxOTxIn where
  | Variant0 : TxId → Nat → UTxOTxIn
  | OtherVariant : Nat → ByteVec → UTxOTxIn
deriving DecidableEq

/-- The UTxO view: a lookup-only mapping from canonical input keys to
outputs (`UTxOs = HashMap<UTxOTxIn, TxOut>` in the source; only `get` and
`contains_key` are used, so it is modelled as the lookup function). -/
abbrev UTxOs := UTxOTxIn → Option TxOut

/-- `to_utxo_tx_in` in the source: normalize an input descriptor to its
canonical key; the non-standard variant has none. -/
def to_utxo_tx_in : TxIn → Option UTxOTxIn
  | TxIn.Variant0 tx_id index => some (UTxOTxIn.Variant0 tx_id index)
  | TxIn.Other _ _ => none

/-- `get_tx_out_from_tx_in` in the source: resolve an input through the
UTxO view. -/
def get_tx_out_from_tx_in (input : TxIn) (utxos : UTxOs) : Option TxOut :=
  (to_utxo_tx_in input).bind utxos

/-- `AnnotatedTx` in the source: a transaction body paired with its
serialized byte length. -/
structure AnnotatedTx where
  tx : Tx
  tx_size : Nat

/-- `annotate_tx` in the source. The CBOR encoder (`pallas_codec`'s
`encode`) is outside the validator crate; modelled from the spec as a
deterministic oracle `encode` producing a byte buffer or failing. -/
def annotate_tx (encode : Tx → Option (List Nat)) (tx : Tx) : Option AnnotatedTx :=
  match encode tx with
  | some buffer => some { tx := tx, tx_size := buffer.length }
  | none => none

/-- Modelled from the spec: `pallas_traverse`'s Byron payload, of which the
validator reads only the `transaction` body. -/
structure MintedTxPayload where
  transaction : Tx

/-- Modelled from the spec: the multi-era transaction sum
(`pallas_traverse::MultiEraTx`); `OtherEra` stands for every variant other
than the three the source matches by name (the source's `_` arm). -/
inductive MultiEraTx where
  | Byron : MintedTxPayload → MultiEraTx
  | AlonzoCompatible : Nat → Nat → MultiEraTx
  | Babbage : Nat → MultiEraTx
  | OtherEra : Nat → MultiEraTx

/-- `check_ins_not_empty` in the source. -/
def check_ins_not_empty (tx : Tx) : ValidationResult :=
  if tx.inputs.toVec.length = 0 then
    err_result ValidationError.TxInsEmpty
  else
    Except.ok ()

/-- The `for` loop of `check_ins_in_utxos` in the source. -/
def check_ins_in_utxos_loop : List TxIn → UTxOs → ValidationResult
  | [], _ => Except.ok ()
  | input :: rest, utxos =>
    match to_utxo_tx_in input with
    | some utxo_in =>
      if (utxos utxo_in).isSome then
        check_ins_in_utxos_loop rest utxos
      else
        err_result ValidationError.InputNotUTxO
    | none => err_result ValidationError.IllFormedInput

/-- `check_ins_in_utxos` in the source. -/
def check_ins_in_utxos (tx : Tx) (utxos : UTxOs) : ValidationResult :=
  check_ins_in_utxos_loop tx.inputs.toVec utxos

/-- `check_outs_not_empty` in the source. -/
def check_outs_not_empty (tx : Tx) : ValidationResult :=
  if tx.outputs.toVec.length = 0 then
    err_result ValidationError.TxOutsEmpty
  else
    Except.ok ()

/-- The `for` loop of `check_outputs_not_zero_lovelace` in the source. -/
def check_outputs_loop : List TxOut → ValidationResult
  | [] => Except.ok ()
  | output :: rest =>
    if output.amount = 0 then
      err_result ValidationError.OutputWithoutLovelace
    else
      check_outputs_loop rest

/-- `check_outputs_not_zero_lovelace` in the source. -/
def check_outputs_not_zero_lovelace (tx : Tx) : ValidationResult :=
  check_outputs_loop tx.outputs.toVec

/-- The body of the `input_balance` loop of `check_fees` in the source:
add the referenced UTxO's amount when the input resolves, otherwise leave
the accumulator unchanged (the silent-skip branch). -/
def add_utxo_amount (utxos : UTxOs) (acc : Nat) (input : TxIn) : Nat :=
  match get_tx_out_from_tx_in input utxos with
  | some tx_out => u64add acc tx_out.amount
  | none => acc

/-- The `input_balance` accumulation of `check_fees` in the source: inputs
that do not resolve through the UTxO view are silently skipped. -/
def input_balance_from (inputs : List TxIn) (utxos : UTxOs) : Nat :=
  inputs.foldl (add_utxo_amount utxos) 0

/-- The `output_balance` accumulation of `check_fees` in the source. -/
def output_balance_from (outputs : List TxOut) : Nat :=
  outputs.foldl (fun acc tx_out => u64add acc tx_out.amount) 0

/-- The `computed_fees` expression of `check_fees` in the source:
`minimum_fee_constant + minimum_fee_factor * tx_size` in `u64`. -/
def computed_fees (protocol_params : ProtocolParams) (tx_size : Nat) : Nat :=
  u64add protocol_params.minimum_fee_constant
    (u64mul protocol_params.minimum_fee_factor tx_size)

/-- The `paid_fees` expression of `check_fees` in the source:
`input_balance - output_balance` in wrapping `u64` subtraction. -/
def paid_fees (atx : AnnotatedTx) (utxos : UTxOs) : Nat :=
  u64sub (input_balance_from atx.tx.inputs.toVec utxos)
    (output_balance_from atx.tx.outputs.toVec)

/-- `check_fees` in the source: `WrongFees` on fee mismatch, then
`FeesBelowMin` when `computed_fees < max_tx_size` (the source literally
compares the computed fees to the size cap). -/
def check_fees (atx : AnnotatedTx) (utxos : UTxOs)
    (protocol_params : ProtocolParams) : ValidationResult :=
  if paid_fees atx utxos ≠ computed_fees protocol_params atx.tx_size then
    err_result (ValidationError.WrongFees (paid_fees atx utxos)
      (computed_fees protocol_params atx.tx_size))
  else if computed_fees protocol_params atx.tx_size < protocol_params.max_tx_size then
    err_result ValidationError.FeesBelowMin
  else
    Except.ok ()

/-- `check_size` in the source. -/
def check_size (atx : AnnotatedTx) (protocol_params : ProtocolParams) :
    ValidationResult :=
  if atx.tx_size > protocol_params.max_tx_size then
    err_result (ValidationError.MaxTxSizeExceeded atx.tx_size
      protocol_params.max_tx_size)
  else
    Except.ok ()

/-- `check_witnesses` in the source: a no-op placeholder that always
succeeds. -/
def check_witnesses (_tx : Tx) (_witnesses : Witnesses) : ValidationResult :=
  Except.ok ()

/-- `validate_byron_tx` in the source: the `?`-chained rule pipeline. -/
def validate_byron_tx (atx : AnnotatedTx) (witnesses : Witnesses)
    (utxos : UTxOs) (protocol_params : ProtocolParams) : ValidationResult := do
  check_ins_not_empty atx.tx
  check_ins_in_utxos atx.tx utxos
  check_outs_not_empty atx.tx
  check_outputs_not_zero_lovelace atx.tx
  check_fees atx utxos protocol_params
  check_size atx protocol_params
  check_witnesses atx.tx witnesses

/-- `validate` in the source: the era dispatcher. -/
def validate (encode : Tx → Option (List Nat)) (metx : MultiEraTx)
    (witnesses : Witnesses) (utxos : UTxOs) (prot_params : ProtocolParams) :
    ValidationResult :=
  match metx with
  | MultiEraTx.Byron mtxp =>
    match annotate_tx encode mtxp.transaction with
    | none => err_result ValidationError.TxSizeUnavailable
    | some atx => validate_byron_tx atx witnesses utxos prot_params
  | MultiEraTx.AlonzoCompatible _ _ => err_result
      (ValidationError.UnsupportedEra "Alonzo-compatible eras not supported.")
  | MultiEraTx.Babbage _ => err_result
      (ValidationError.UnsupportedEra "Babbage era not supported.")
  | MultiEraTx.OtherEra _ => err_result
      (ValidationError.UnsupportedEra "Era not supported.")

/-- The first branch of `check_fees` in isolation (spec rule R5): the fee
mismatch check. -/
def ruleR5 (atx : AnnotatedTx) (utxos : UTxOs)
    (protocol_params : ProtocolParams) : ValidationResult :=
  if paid_fees atx utxos ≠ computed_fees protocol_params atx.tx_size then
    err_result (ValidationError.WrongFees (paid_fees atx utxos)
      (computed_fees protocol_params atx.tx_size))
  else
    Except.ok ()

/-- The second branch of `check_fees` in isolation (spec rule R6 as the
source implements it): `FeesBelowMin` when the computed fees are below the
size cap `max_tx_size`. -/
def ruleR6 (atx : AnnotatedTx) (protocol_params : ProtocolParams) :
    ValidationResult :=
  if computed_fees protocol_params atx.tx_size < protocol_params.max_tx_size then
    err_result ValidationError.FeesBelowMin
  else
    Except.ok ()

/-- The verdict of the earliest failing rule in a list of rule results,
success when none fails. -/
def firstFailure : List ValidationResult → ValidationResult
  | [] => Except.ok ()
  | Except.error e :: _ => Except.error e
  | Except.ok _ :: rest => firstFailure rest

/-- Resolve every input through the UTxO view, failing if any input does
not resolve (the fully-resolved input list referenced by spec rule R5). -/
def resolve_all : List TxIn → UTxOs → Option (List TxOut)
  | [], _ => some []
  | input :: rest, utxos =>
    match get_tx_out_from_tx_in input utxos with
    | some tx_out => (resolve_all rest utxos).map (fun outs => tx_out :: outs)
    | none => none

instance exceptDecEq {ε α : Type} [DecidableEq ε] [DecidableEq α] :
    DecidableEq (Except ε α)
  | Except.error a, Except.error b =>
    if h : a = b then isTrue (by rw [h])
    else isFalse (by intro hc; cases hc; exact h rfl)
  | Except.error _, Except.ok _ => isFalse (by intro hc; cases hc)
  | Except.ok _, Except.error _ => isFalse (by intro hc; cases hc)
  | Except.ok a, Except.ok b =>
    if h : a = b then isTrue (by rw [h])
    else isFalse (by intro hc; cases hc; exact h rfl)

/- Concrete data for the test scenarios of the repository's test suite
(`tests/tests.rs`): a single standard input at index 3 referencing a UTxO
of 100000 lovelace, one output, `tx_size` 82. -/

/-- A concrete 32-byte transaction id. -/
def tx_id_0 : TxId := List.replicate 32 7

/-- The standard input of the test scenarios: `(tx_id_0, 3)`. -/
def tx_in_0 : TxIn := TxIn.Variant0 tx_id_0 3

/-- The canonical key of `tx_in_0`. -/
def utxo_key_0 : UTxOTxIn := UTxOTxIn.Variant0 tx_id_0 3

/-- A concrete address. -/
def addr_0 : Address := { payload := List.replicate 24 0, crc := 0 }

/-- A UTxO view holding 100000 lovelace at `utxo_key_0`. -/
def utxos_0 : UTxOs :=
  fun k => if k = utxo_key_0 then some { address := addr_0, amount := 100000 } else none

/-- The `successful_case` transaction: one input `tx_in_0`, one output of
99091 lovelace. -/
def tx_ok : Tx :=
  { inputs := MaybeIndefArray.Def [tx_in_0],
    outputs := MaybeIndefArray.Def [{ address := addr_0, amount := 99091 }],
    attributes := () }

/-- `tx_ok` annotated with the size 82 the test suite records. -/
def atx_ok : AnnotatedTx := { tx := tx_ok, tx_size := 82 }

/-- The empty witness sequence of the test scenarios. -/
def w_0 : Witnesses := MaybeIndefArray.Def []

/-- A UTxO view holding 0 lovelace at `utxo_key_0`. -/
def utxos_z : UTxOs :=
  fun k => if k = utxo_key_0 then some { address := addr_0, amount := 0 } else none

/-- An output-heavy transaction: one input `tx_in_0`, one output of
`2 ^ 64 - 909` lovelace. -/
def tx_wrap : Tx :=
  { inputs := MaybeIndefArray.Def [tx_in_0],
    outputs := MaybeIndefArray.Def [{ address := addr_0, amount := 18446744073709550707 }],
    attributes := () }

/-- `tx_wrap` annotated with size 82. -/
def atx_wrap : AnnotatedTx := { tx := tx_wrap, tx_size := 82 }

/-- The `wrong_fees` transaction: like `tx_ok` but the output is 99092. -/
def tx_wf : Tx :=
  { inputs := MaybeIndefArray.Def [tx_in_0],
    outputs := MaybeIndefArray.Def [{ address := addr_0, amount := 99092 }],
    attributes := () }

/-- `tx_wf` annotated with size 82. -/
def atx_wf : AnnotatedTx := { tx := tx_wf, tx_size := 82 }

/-- A transaction whose single input is the non-standard variant. -/
def tx_ill : Tx :=
  { inputs := MaybeIndefArray.Def [TxIn.Other 0 []],
    outputs := MaybeIndefArray.Def [{ address := addr_0, amount := 1000 }],
    attributes := () }

/-- An always-failing encoder oracle. -/
def encode_none : Tx → Option (List Nat) := fun _ => none

/-- The empty UTxO view. -/
def utxos_empty : UTxOs := fun _ => none

/-- Binding an error result short-circuits (`?` on an `Err`). -/
theorem bind_error_eq (e : ValidationError) (f : Unit → ValidationResult) :
    (Except.error e >>= f : ValidationResult) = Except.error e := rfl

/-- Binding a success result continues (`?` on an `Ok`). -/
theorem bind_ok_eq (f : Unit → ValidationResult) :
    (Except.ok () >>= f : ValidationResult) = f () := rfl

/-- `check_fees` is exactly the R5 branch followed by the R6 branch. -/
theorem check_fees_eq_rules (atx : AnnotatedTx) (u : UTxOs) (p : ProtocolParams) :
    check_fees atx u p = firstFailure [ruleR5 atx u p, ruleR6 atx p] := by
  by_cases h : paid_fees atx u = computed_fees p atx.tx_size
  · by_cases h2 : computed_fees p atx.tx_size < p.max_tx_size <;>
      simp [check_fees, ruleR5, ruleR6, firstFailure, h, h2, err_result]
  · simp [check_fees, ruleR5, ruleR6, firstFailure, h, err_result]

/-- Claim C1 (refuting evaluation): the source's R6 branch compares the
computed fees against the size cap `max_tx_size` rather than comparing the
paid fees against the fee floor. At the `successful_case` data with
`max_tx_size = 1000`, the paid fees (909) exactly equal the fee floor
`min_fee_constant + min_fee_factor * tx_size = 7 + 11 * 82 = 909`, so they
are not strictly below it, yet `check_fees` returns `FeesBelowMin`
because `909 < 1000`. -/
theorem check_fees_floor_miscompares :
    check_fees atx_ok utxos_0 ⟨7, 11, 1000⟩ = Except.error ValidationError.FeesBelowMin ∧
    paid_fees atx_ok utxos_0 = 909 ∧
    computed_fees ⟨7, 11, 1000⟩ atx_ok.tx_size = 909 ∧
    ¬ paid_fees atx_ok utxos_0 < computed_fees ⟨7, 11, 1000⟩ atx_ok.tx_size := by
  decide

/-- Claim C2 (refuting evaluation): the subtraction
`input_balance - output_balance` in `check_fees` is not checked. On a
transaction whose output balance (`2 ^ 64 - 909`) exceeds its input
balance (0), the wrapping `u64` subtraction yields exactly the expected
fee 909, so the whole Byron validation succeeds instead of returning the
failure verdict `WrongFees(0, 909)` the claim requires. -/
theorem check_fees_underflow_wraps :
    output_balance_from tx_wrap.outputs.toVec = 18446744073709550707 ∧
    input_balance_from tx_wrap.inputs.toVec utxos_z = 0 ∧
    paid_fees atx_wrap utxos_z = 909 ∧
    validate_byron_tx atx_wrap w_0 utxos_z ⟨7, 11, 100⟩ = Except.ok () := by
  decide

/-- Claim C3 (refuting evaluation): size monotonicity fails on the source.
The `successful_case` transaction is accepted with `max_tx_size = 100` but
rejected with `FeesBelowMin` when `max_tx_size` is raised to 1000, because
`check_fees` compares `computed_fees < max_tx_size`. -/
theorem validate_byron_tx_not_size_monotone :
    validate_byron_tx atx_ok w_0 utxos_0 ⟨7, 11, 100⟩ = Except.ok () ∧
    (100 : Nat) < 1000 ∧
    validate_byron_tx atx_ok w_0 utxos_0 ⟨7, 11, 1000⟩ =
      Except.error ValidationError.FeesBelowMin := by
  decide

/-- Claim C4: `validate_byron_tx` returns the verdict of the
earliest-numbered failing rule in the order R1 (`check_ins_not_empty`),
R2 (`check_ins_in_utxos`), R3 (`check_outs_not_empty`),
R4 (`check_outputs_not_zero_lovelace`), R5 (`ruleR5`, the `WrongFees`
branch), R6 (`ruleR6`, the `FeesBelowMin` branch), R7 (`check_size`),
R8 (`check_witnesses`): it equals the first failure of the rule-result
list, so later rules never influence the verdict once an earlier one
fails. -/
theorem validate_byron_tx_rule_order (atx : AnnotatedTx) (w : Witnesses)
    (u : UTxOs) (p : ProtocolParams) :
    validate_byron_tx atx w u p = firstFailure
      [check_ins_not_empty atx.tx, check_ins_in_utxos atx.tx u,
       check_outs_not_empty atx.tx, check_outputs_not_zero_lovelace atx.tx,
       ruleR5 atx u p, ruleR6 atx p, check_size atx p,
       check_witnesses atx.tx w] := by
  unfold validate_byron_tx
  cases h1 : check_ins_not_empty atx.tx with
  | error e => simp [firstFailure, h1, bind_error_eq]
  | ok v =>
    cases v
    simp only [h1, bind_ok_eq, firstFailure]
    cases h2 : check_ins_in_utxos atx.tx u with
    | error e => simp [firstFailure, h2, bind_error_eq]
    | ok v =>
      cases v
      simp only [h2, bind_ok_eq, firstFailure]
      cases h3 : check_outs_not_empty atx.tx with
      | error e => simp [firstFailure, h3, bind_error_eq]
      | ok v =>
        cases v
        simp only [h3, bind_ok_eq, firstFailure]
        cases h4 : check_outputs_not_zero_lovelace atx.tx with
        | error e => simp [firstFailure, h4, bind_error_eq]
        | ok v =>
          cases v
          simp only [h4, bind_ok_eq, firstFailure]
          by_cases h5 : paid_fees atx u = computed_fees p atx.tx_size
          · by_cases h6 : computed_fees p atx.tx_size < p.max_tx_size
            · simp [check_fees, ruleR5, ruleR6, firstFailure, h5, h6, err_result,
                bind_error_eq, bind_ok_eq]
            · cases h7 : check_size atx p with
              | error e =>
                simp [check_fees, ruleR5, ruleR6, firstFailure, h5, h6, h7, err_result,
                  bind_error_eq, bind_ok_eq]
              | ok v =>
                cases v
                simp [check_fees, ruleR5, ruleR6, firstFailure, h5, h6, h7, err_result,
                  bind_error_eq, bind_ok_eq, check_witnesses]
          · simp [check_fees, ruleR5, firstFailure, h5, err_result, bind_error_eq]

/-- The R2 loop succeeds iff every input normalizes to a key present in
the UTxO view. -/
theorem loop_ok_iff (l : List TxIn) (u : UTxOs) :
    check_ins_in_utxos_loop l u = Except.ok () ↔
      ∀ i ∈ l, ∃ k, to_utxo_tx_in i = some k ∧ (u k).isSome := by
  induction l with
  | nil => simp [check_ins_in_utxos_loop]
  | cons i rest ih =>
    cases hk : to_utxo_tx_in i with
    | none => simp [check_ins_in_utxos_loop, hk, err_result]
    | some k =>
      by_cases hu : (u k).isSome
      · simp [check_ins_in_utxos_loop, hk, hu, ih]
      · simp [check_ins_in_utxos_loop, hk, hu, err_result]

/-- The R2 loop skips over a resolvable prefix of the input sequence. -/
theorem loop_append_resolved (pre : List TxIn) (u : UTxOs)
    (hpre : ∀ j ∈ pre, ∃ k, to_utxo_tx_in j = some k ∧ (u k).isSome)
    (rest : List TxIn) :
    check_ins_in_utxos_loop (pre ++ rest) u = check_ins_in_utxos_loop rest u := by
  induction pre with
  | nil => rfl
  | cons j pre ih =>
    obtain ⟨k, hk, hu⟩ := hpre j (by simp)
    have hrec := ih (fun j2 hj2 => hpre j2 (by simp [hj2]))
    simp [List.cons_append, check_ins_in_utxos_loop, hk, hu, hrec]

/-- Claim C5: `check_ins_in_utxos` passes iff every input normalizes to a
canonical key present in the UTxO view; at the first offending input in
sequence order (every earlier input resolving), a non-normalizable input
yields `IllFormedInput` — with no condition on the UTxO view — and a
normalizable input whose key is absent yields `InputNotUTxO`. -/
theorem check_ins_in_utxos_spec (tx : Tx) (u : UTxOs) :
    (check_ins_in_utxos tx u = Except.ok () ↔
      ∀ i ∈ tx.inputs.toVec, ∃ k, to_utxo_tx_in i = some k ∧ (u k).isSome) ∧
    (∀ pre i post, tx.inputs.toVec = pre ++ i :: post →
      (∀ j ∈ pre, ∃ k, to_utxo_tx_in j = some k ∧ (u k).isSome) →
      (to_utxo_tx_in i = none →
        check_ins_in_utxos tx u = Except.error ValidationError.IllFormedInput) ∧
      (∀ k, to_utxo_tx_in i = some k → u k = none →
        check_ins_in_utxos tx u = Except.error ValidationError.InputNotUTxO)) := by
  constructor
  · exact loop_ok_iff tx.inputs.toVec u
  · intro pre i post hsplit hpre
    constructor
    · intro hnone
      unfold check_ins_in_utxos
      rw [hsplit, loop_append_resolved pre u hpre]
      simp [check_ins_in_utxos_loop, hnone, err_result]
    · intro k hk hu
      unfold check_ins_in_utxos
      rw [hsplit, loop_append_resolved pre u hpre]
      simp [check_ins_in_utxos_loop, hk, hu, err_result]

/-- Witness for claim C5: a transaction whose single input is the
non-standard variant is rejected with `IllFormedInput`. -/
theorem check_ins_in_utxos_spec_witness :
    check_ins_in_utxos tx_ill utxos_0 = Except.error ValidationError.IllFormedInput := by
  have h := (check_ins_in_utxos_spec tx_ill utxos_0).2 [] (TxIn.Other 0 []) [] rfl (by simp)
  exact h.1 rfl

/-- Claim C6: for transactions passing R1-R4, rule R5 passes (no
`WrongFees` verdict) iff the paid fees — the source's wrapping `u64`
difference of input and output balances — equal
`minimum_fee_constant + minimum_fee_factor * tx_size`; on mismatch the
verdict is `WrongFees(paid, expected)` carrying both values. -/
theorem check_fees_r5_iff (atx : AnnotatedTx) (u : UTxOs) (p : ProtocolParams)
    (_h1 : check_ins_not_empty atx.tx = Except.ok ())
    (_h2 : check_ins_in_utxos atx.tx u = Except.ok ())
    (_h3 : check_outs_not_empty atx.tx = Except.ok ())
    (_h4 : check_outputs_not_zero_lovelace atx.tx = Except.ok ()) :
    ((∀ a b, check_fees atx u p ≠ Except.error (ValidationError.WrongFees a b)) ↔
      paid_fees atx u = computed_fees p atx.tx_size) ∧
    (paid_fees atx u ≠ computed_fees p atx.tx_size →
      check_fees atx u p = Except.error (ValidationError.WrongFees
        (paid_fees atx u) (computed_fees p atx.tx_size))) := by
  constructor
  · constructor
    · intro hno
      by_contra hne
      exact hno (paid_fees atx u) (computed_fees p atx.tx_size)
        (by simp [check_fees, hne, err_result])
    · intro heq a b
      unfold check_fees
      rw [if_neg (by simp [heq])]
      split <;> simp [err_result]
  · intro hne
    simp [check_fees, hne, err_result]

/-- Witness for claim C6: the `wrong_fees` scenario — the `successful_case`
setup with output 99092 — yields `WrongFees(908, 909)`. -/
theorem check_fees_r5_iff_witness :
    check_fees atx_wf utxos_0 ⟨7, 11, 0⟩ =
      Except.error (ValidationError.WrongFees 908 909) := by
  have h := (check_fees_r5_iff atx_wf utxos_0 ⟨7, 11, 0⟩
    (by decide) (by decide) (by decide) (by decide)).2 (by decide)
  rw [h]
  decide

/-- Claim C7: for every non-Byron era variant, `validate` returns exactly
an `UnsupportedEra` verdict, and the result is independent of witnesses,
UTxO view and protocol parameters (no Byron rule contributes). -/
theorem validate_era_gating (encode : Tx → Option (List Nat)) (metx : MultiEraTx)
    (w : Witnesses) (u : UTxOs) (p : ProtocolParams)
    (h : ∀ mtxp, metx ≠ MultiEraTx.Byron mtxp) :
    (∃ s, validate encode metx w u p = Except.error (ValidationError.UnsupportedEra s)) ∧
    (∀ w2 u2 p2, validate encode metx w u p = validate encode metx w2 u2 p2) := by
  cases metx with
  | Byron mtxp => exact absurd rfl (h mtxp)
  | AlonzoCompatible a b => exact ⟨⟨_, rfl⟩, fun _ _ _ => rfl⟩
  | Babbage a => exact ⟨⟨_, rfl⟩, fun _ _ _ => rfl⟩
  | OtherEra a => exact ⟨⟨_, rfl⟩, fun _ _ _ => rfl⟩

/-- Witness for claim C7: a Babbage transaction is rejected with
`UnsupportedEra`. -/
theorem validate_era_gating_witness :
    ∃ s, validate encode_none (MultiEraTx.Babbage 0) w_0 utxos_empty ⟨0, 0, 0⟩ =
      Except.error (ValidationError.UnsupportedEra s) :=
  (validate_era_gating encode_none (MultiEraTx.Babbage 0) w_0 utxos_empty ⟨0, 0, 0⟩
    (fun _ hc => MultiEraTx.noConfusion hc)).1

/-- Claim C8: for any encoder oracle, `annotate_tx` returns either the
body paired with the byte length of its serialization or nothing; in the
latter case `validate` returns `TxSizeUnavailable`; and two calls on the
same body yield identical byte lengths. -/
theorem annotate_tx_contract (encode : Tx → Option (List Nat)) (tx : Tx)
    (w : Witnesses) (u : UTxOs) (p : ProtocolParams) :
    (annotate_tx encode tx = none →
      validate encode (MultiEraTx.Byron ⟨tx⟩) w u p =
        Except.error ValidationError.TxSizeUnavailable) ∧
    (∀ atx, annotate_tx encode tx = some atx →
      atx.tx = tx ∧ ∃ buffer, encode tx = some buffer ∧ atx.tx_size = buffer.length) ∧
    (∀ atx1 atx2, annotate_tx encode tx = some atx1 → annotate_tx encode tx = some atx2 →
      atx1.tx_size = atx2.tx_size) := by
  refine ⟨?_, ?_, ?_⟩
  · intro hnone
    have hv : validate encode (MultiEraTx.Byron ⟨tx⟩) w u p =
        match annotate_tx encode tx with
        | none => err_result ValidationError.TxSizeUnavailable
        | some atx => validate_byron_tx atx w u p := rfl
    rw [hv, hnone]
    rfl
  · intro atx hsome
    unfold annotate_tx at hsome
    cases henc : encode tx with
    | none => rw [henc] at hsome; exact absurd hsome (by simp)
    | some buffer =>
      rw [henc] at hsome
      injection hsome with h
      subst h
      exact ⟨rfl, buffer, rfl, rfl⟩
  · intro atx1 atx2 hs1 hs2
    rw [hs1] at hs2
    injection hs2 with h
    rw [h]

/-- Witness for claim C8: when the encoder fails, `validate` returns
`TxSizeUnavailable`. -/
theorem annotate_tx_contract_witness :
    validate encode_none (MultiEraTx.Byron ⟨tx_ok⟩) w_0 utxos_0 ⟨7, 11, 100⟩ =
      Except.error ValidationError.TxSizeUnavailable :=
  (annotate_tx_contract encode_none tx_ok w_0 utxos_0 ⟨7, 11, 100⟩).1 rfl

/-- Claim C9: the verdict of `validate_byron_tx` is identical for any two
witness sequences, and the witness check `check_witnesses` unconditionally
succeeds — no witness-related failure is ever returned. -/
theorem validate_byron_tx_witness_independence (atx : AnnotatedTx) (u : UTxOs)
    (p : ProtocolParams) (w1 w2 : Witnesses) :
    validate_byron_tx atx w1 u p = validate_byron_tx atx w2 u p ∧
    check_witnesses atx.tx w1 = Except.ok () := by
  constructor
  · simp [validate_byron_tx, check_witnesses]
  · rfl

/-- If the R2 loop succeeded, every input resolves through the UTxO
view. -/
theorem loop_ok_resolves (l : List TxIn) (u : UTxOs)
    (h : check_ins_in_utxos_loop l u = Except.ok ()) :
    ∀ i ∈ l, (get_tx_out_from_tx_in i u).isSome := by
  intro i hi
  obtain ⟨k, hk, hu⟩ := (loop_ok_iff l u).mp h i hi
  simpa [get_tx_out_from_tx_in, hk] using hu

/-- When every input resolves, the skip-tolerant balance fold equals the
fold over the fully resolved output list, for every accumulator. -/
theorem balance_fold_resolved (l : List TxIn) (u : UTxOs)
    (h : ∀ i ∈ l, (get_tx_out_from_tx_in i u).isSome) :
    ∃ outs, resolve_all l u = some outs ∧
      ∀ acc, l.foldl (add_utxo_amount u) acc =
        outs.foldl (fun acc2 tx_out => u64add acc2 tx_out.amount) acc := by
  induction l with
  | nil => exact ⟨[], rfl, fun _ => rfl⟩
  | cons i rest ih =>
    have hi := h i (by simp)
    cases hg : get_tx_out_from_tx_in i u with
    | none => rw [hg] at hi; simp at hi
    | some o =>
      obtain ⟨outs, hres, hfold⟩ := ih (fun j hj => h j (by simp [hj]))
      refine ⟨o :: outs, ?_, ?_⟩
      · simp [resolve_all, hg, hres]
      · intro acc
        simp only [List.foldl_cons, add_utxo_amount, hg]
        exact hfold (u64add acc o.amount)

/-- Claim C10: if `check_ins_in_utxos` succeeded, the silent-skip branch
of the `input_balance` loop in `check_fees` is unreachable — every input
resolves — and the input balance equals the (wrapping) sum of the
referenced UTxO amounts over all inputs. -/
theorem input_balance_fully_resolved (tx : Tx) (u : UTxOs)
    (h : check_ins_in_utxos tx u = Except.ok ()) :
    (∀ i ∈ tx.inputs.toVec, (get_tx_out_from_tx_in i u).isSome) ∧
    ∃ outs : List TxOut,
      resolve_all tx.inputs.toVec u = some outs ∧
      input_balance_from tx.inputs.toVec u =
        outs.foldl (fun acc tx_out => u64add acc tx_out.amount) 0 := by
  have hres := loop_ok_resolves tx.inputs.toVec u h
  obtain ⟨outs, h1, h2⟩ := balance_fold_resolved tx.inputs.toVec u hres
  exact ⟨hres, outs, h1, h2 0⟩

/-- Witness for claim C10: on the `successful_case` data every input
resolves and the balance is the full resolved sum. -/
theorem input_balance_fully_resolved_witness :
    ∃ outs : List TxOut,
      resolve_all tx_ok.inputs.toVec utxos_0 = some outs ∧
      input_balance_from tx_ok.inputs.toVec utxos_0 =
        outs.foldl (fun acc tx_out => u64add acc tx_out.amount) 0 :=
  (input_balance_fully_resolved tx_ok utxos_0 (by decide)).2

end Pallas
